import Mathlib

/-!
# Verification of the Expense-Tracker repository

Shallow embedding of the repository's Python sources:

* `src/python/utils.py` — `parse_iso_date`, `parse_amount`
* `src/python/storage.py` — SQLite schema and the CRUD / aggregation queries
* `src/python/expense_tracker.py` — the CSV-export menu action

Strings that the code manipulates are modelled on `List Char` (Python `str`
operations become list operations).  SQLite `REAL` amounts are modelled as
exact rationals `ℚ`; every concrete value appearing in a theorem below is
exactly representable as a double, so no float/rational divergence is
exercised.  Python's `round(x, 2)` is modelled as round-half-to-even on the
exact rational value.
-/

namespace ExpenseTracker

/-! ## Python string primitives

`pyStrip` models Python `str.strip()` (remove leading and trailing
whitespace; Lean's `Char.isWhitespace` covers the ASCII whitespace used by
every claim).  `commaToDot` models `s.replace(",", ".")`: a
single-character-to-single-character replace is a map. -/

def pyStrip (l : List Char) : List Char :=
  ((l.dropWhile Char.isWhitespace).reverse.dropWhile Char.isWhitespace).reverse

/-- Python `s.strip()` on a `String`. -/
def strTrim (s : String) : String :=
  String.mk (pyStrip s.data)

def commaToDot (l : List Char) : List Char :=
  l.map (fun c => if c = ',' then '.' else c)

/-! ## `utils.parse_iso_date`

```python
ISO_DATE_RE = re.compile(r"^\d{4}-\d{2}-\d{2}$")

def parse_iso_date(s):
    s = (s or "").strip()
    if not ISO_DATE_RE.match(s):
        return None
    try:
        datetime.strptime(s, "%Y-%m-%d")
    except ValueError:
        return None
    return s
```

After stripping, the string cannot end in a newline, so the regex is an
exact 10-character shape test; `isoFields` performs it and extracts the
numeric year/month/day.  `datetime.strptime` accepts exactly the proleptic
Gregorian dates with year between 1 (`datetime.MINYEAR`) and 9999 — the
upper bound is already forced by the 4-digit year; `validYMD` models that
check. -/

def digitsVal (l : List Char) : Nat :=
  l.foldl (fun a c => 10 * a + (c.toNat - 48)) 0

/-- The regex `^\d{4}-\d{2}-\d{2}$` together with field extraction. -/
def isoFields : List Char → Option (Nat × Nat × Nat)
  | [y1, y2, y3, y4, s1, m1, m2, s2, d1, d2] =>
    if y1.isDigit ∧ y2.isDigit ∧ y3.isDigit ∧ y4.isDigit ∧ s1 = '-' ∧
       m1.isDigit ∧ m2.isDigit ∧ s2 = '-' ∧ d1.isDigit ∧ d2.isDigit then
      some (digitsVal [y1, y2, y3, y4], digitsVal [m1, m2], digitsVal [d1, d2])
    else none
  | _ => none

def isLeapB (y : Nat) : Bool :=
  decide ((y % 4 = 0 ∧ y % 100 ≠ 0) ∨ y % 400 = 0)

/-- Month lengths as `datetime` enforces them (proleptic Gregorian). -/
def daysInMonth (y m : Nat) : Nat :=
  if m = 2 then (if isLeapB y then 29 else 28)
  else if m = 4 ∨ m = 6 ∨ m = 9 ∨ m = 11 then 30
  else 31

/-- Models `datetime.strptime(s, "%Y-%m-%d")`: it succeeds iff the triple is a real
calendar date with year ≥ `datetime.MINYEAR = 1`. -/
def validYMD (y m d : Nat) : Bool :=
  decide (1 ≤ y ∧ 1 ≤ m ∧ m ≤ 12 ∧ 1 ≤ d ∧ d ≤ daysInMonth y m)

def parse_iso_date (s : String) : Option String :=
  let t := pyStrip s.data
  match isoFields t with
  | some (y, m, d) => if validYMD y m d then some (String.mk t) else none
  | none => none

/-! ## `utils.parse_amount`

```python
def parse_amount(s):
    if s is None:
        return None
    s = s.strip().replace(",", ".")
    try:
        value = float(s)
        if value <= 0:
            return None
        return round(value, 2)
    except ValueError:
        return None
```

`float(s)` is modelled in two stages: `parseFloatParts` recognises the
CPython float-literal grammar
`sign? (digits ["." digits*] | "." digits) [("e"|"E") sign? digits]`
and extracts (sign, integer digits, fraction digits, exponent); `partsVal`
evaluates the parts exactly in `ℚ`.  (The special forms `inf`/`nan` and
underscore digit grouping, which no claim touches, are not modelled.) -/

/-- An optional leading `+`/`-`; returns (isNegative, rest). -/
def splitSign (l : List Char) : Bool × List Char :=
  match l with
  | c :: r => if c = '-' then (true, r) else if c = '+' then (false, r) else (false, l)
  | [] => (false, [])

/-- An optional `"." digits*` fractional part; returns (fractionDigits?, rest). -/
def splitFrac (l : List Char) : Option (List Char) × List Char :=
  match l with
  | c :: r =>
    if c = '.' then (some (r.takeWhile Char.isDigit), r.dropWhile Char.isDigit) else (none, c :: r)
  | [] => (none, [])

/-- The exponent tail: either nothing, or `("e"|"E") sign? digits` consuming
the whole remainder. -/
def parseExpPart (l : List Char) : Option Int :=
  match l with
  | [] => some 0
  | c :: r =>
    if c = 'e' ∨ c = 'E' then
      let neg := (splitSign r).1
      let r1 := (splitSign r).2
      let ds := r1.takeWhile Char.isDigit
      if ds = [] ∨ r1.dropWhile Char.isDigit ≠ [] then none
      else some (if neg then -(digitsVal ds : Int) else (digitsVal ds : Int))
    else none

/-- The digit content of a float literal: sign, integer-part value,
fraction-part value, number of fraction digits, exponent. -/
structure FloatParts where
  neg : Bool
  ip : Nat
  fd : Nat
  fl : Nat
  ex : Int
deriving DecidableEq, Repr

def parseFloatParts (l : List Char) : Option FloatParts :=
  let neg := (splitSign l).1
  let l1 := (splitSign l).2
  let ip := l1.takeWhile Char.isDigit
  let fd := ((splitFrac (l1.dropWhile Char.isDigit)).1).getD []
  let l3 := (splitFrac (l1.dropWhile Char.isDigit)).2
  if ip = [] ∧ fd = [] then none
  else
    match parseExpPart l3 with
    | none => none
    | some ex => some ⟨neg, digitsVal ip, digitsVal fd, fd.length, ex⟩

/-- The exact rational value of a float literal. -/
def partsVal (p : FloatParts) : ℚ :=
  let mag : ℚ := ((p.ip : ℚ) + (p.fd : ℚ) / (10 : ℚ) ^ p.fl) * (10 : ℚ) ^ p.ex
  if p.neg then -mag else mag

/-- Python `float(s)` on the modelled grammar. -/
def parsePyFloat (l : List Char) : Option ℚ :=
  (parseFloatParts l).map partsVal

/-- Round to the nearest integer, ties to even (CPython `round` semantics on
the exact value). -/
def roundHalfEven (q : ℚ) : ℤ :=
  let f := ⌊q⌋
  if q - f < 1 / 2 then f
  else if 1 / 2 < q - f then f + 1
  else if f % 2 = 0 then f else f + 1

/-- Python `round(value, 2)` on the exact rational value. -/
def pyRound2 (q : ℚ) : ℚ :=
  (roundHalfEven (q * 100) : ℚ) / 100

def parse_amount (s : String) : Option ℚ :=
  match parseFloatParts (commaToDot (pyStrip s.data)) with
  | none => none
  | some p => if partsVal p ≤ 0 then none else some (pyRound2 (partsVal p))

/-! ## `storage.py` — data model

The SQLite schema:

```sql
CREATE TABLE categories(id INTEGER PRIMARY KEY AUTOINCREMENT, name TEXT NOT NULL UNIQUE);
CREATE TABLE expenses(
    id INTEGER PRIMARY KEY AUTOINCREMENT,
    date TEXT NOT NULL, amount REAL NOT NULL, description TEXT, category_id INTEGER,
    FOREIGN KEY(category_id) REFERENCES categories(id) ON DELETE SET NULL);
```

A table is a list of rows; `AUTOINCREMENT` is modelled by a `next…Id`
counter (fresh ids are strictly larger than all existing ones).  `REAL`
amounts are exact rationals (see the file header).  Foreign-key enforcement
is active (`PRAGMA foreign_keys = ON` runs on every connection). -/

structure Category where
  id : Nat
  name : String
deriving DecidableEq, Repr

structure Expense where
  id : Nat
  date : String
  amount : ℚ
  description : Option String
  category_id : Option Nat
deriving DecidableEq, Repr

structure DB where
  categories : List Category
  expenses : List Expense
  nextExpenseId : Nat
deriving DecidableEq, Repr

/-- A result row of `list_expenses`:
`e.id, e.date, e.amount, COALESCE(e.description,''), COALESCE(c.name,'-')`. -/
structure Row where
  id : Nat
  date : String
  amount : ℚ
  description : String
  category : String
deriving DecidableEq, Repr

/-- Models `LEFT JOIN categories c ON c.id = e.category_id` followed by
`COALESCE(c.name, '-')`. -/
def catName (db : DB) (c : Option Nat) : String :=
  match c with
  | none => "-"
  | some cid =>
    match db.categories.find? (fun cat => cat.id = cid) with
    | some cat => cat.name
    | none => "-"

/-! ## `storage.add_expense`

```python
cur.execute("INSERT INTO expenses(date, amount, description, category_id) VALUES (?,?,?,?)",
            (date, amount, description.strip() if description else None, category_id))
```

A dangling `category_id` raises `IntegrityError` (foreign keys are ON), so
the operation is partial; on success it returns `lastrowid` and the new
state. -/

/-- Models `description.strip() if description else None` (`""` is falsy). -/
def storedDesc (description : String) : Option String :=
  if description = "" then none else some (strTrim description)

def add_expense (db : DB) (date : String) (amount : ℚ) (description : String)
    (category_id : Option Nat) : Option (Nat × DB) :=
  match category_id with
  | some c =>
    if db.categories.any (fun cat => cat.id = c) then
      some (db.nextExpenseId,
        { db with
          expenses := db.expenses ++
            [⟨db.nextExpenseId, date, amount, storedDesc description, some c⟩],
          nextExpenseId := db.nextExpenseId + 1 })
    else none
  | none =>
    some (db.nextExpenseId,
      { db with
        expenses := db.expenses ++
          [⟨db.nextExpenseId, date, amount, storedDesc description, none⟩],
        nextExpenseId := db.nextExpenseId + 1 })

/-! ## `storage.list_expenses`

```python
q = "SELECT e.id, e.date, e.amount, COALESCE(e.description,''), COALESCE(c.name, '-')
     FROM expenses e LEFT JOIN categories c ON c.id = e.category_id WHERE 1=1"
if date_from:  q += " AND e.date >= ?"
if date_to:    q += " AND e.date <= ?"
if category_id: q += " AND e.category_id = ?"
q += " ORDER BY e.date DESC, e.id DESC"
```

Each filter is added only when the Python value is truthy (`None` and `""`
are falsy strings, `None` and `0` falsy ints).  Date comparison is SQLite
`BINARY` collation — bytewise on the UTF-8 encoding, which coincides with
the lexicographic order on the strings' character lists (UTF-8 is
order-preserving).  The `ORDER BY` is modelled by `List.insertionSort` with
the (total, transitive) descending order `rowLE`. -/

def render (db : DB) (e : Expense) : Row :=
  ⟨e.id, e.date, e.amount, e.description.getD "", catName db e.category_id⟩

def passDF (date_from : Option String) (e : Expense) : Bool :=
  match date_from with
  | none => true
  | some f => if f = "" then true else decide (f.data ≤ e.date.data)

def passDT (date_to : Option String) (e : Expense) : Bool :=
  match date_to with
  | none => true
  | some t => if t = "" then true else decide (e.date.data ≤ t.data)

def passCat (category_id : Option Nat) (e : Expense) : Bool :=
  match category_id with
  | none => true
  | some c => if c = 0 then true else decide (e.category_id = some c)

def passes (date_from date_to : Option String) (category_id : Option Nat) (e : Expense) : Bool :=
  passDF date_from e && passDT date_to e && passCat category_id e

/-- Models `ORDER BY e.date DESC, e.id DESC`: `a` comes no later than `b`. -/
def rowLE (a b : Row) : Prop :=
  b.date.data < a.date.data ∨ (b.date.data = a.date.data ∧ b.id ≤ a.id)

instance : DecidableRel rowLE := fun a b => by
  unfold rowLE
  exact inferInstance

instance : IsTotal Row rowLE :=
  ⟨fun a b => by
    rcases lt_trichotomy a.date.data b.date.data with h | h | h
    · exact Or.inr (Or.inl h)
    · rcases Nat.le_total b.id a.id with h2 | h2
      · exact Or.inl (Or.inr ⟨h.symm, h2⟩)
      · exact Or.inr (Or.inr ⟨h, h2⟩)
    · exact Or.inl (Or.inl h)⟩

instance : IsTrans Row rowLE :=
  ⟨fun a b c hab hbc => by
    rcases hab with h1 | ⟨h1, h1'⟩ <;> rcases hbc with h2 | ⟨h2, h2'⟩
    · exact Or.inl (lt_trans h2 h1)
    · exact Or.inl (lt_of_le_of_lt (le_of_eq h2) h1)
    · exact Or.inl (lt_of_lt_of_le h2 (le_of_eq h1))
    · exact Or.inr ⟨h2.trans h1, h2'.trans h1'⟩⟩

def list_expenses (db : DB) (date_from : Option String)
    (date_to : Option String) (category_id : Option Nat) : List Row :=
  List.insertionSort rowLE
    ((db.expenses.filter (passes date_from date_to category_id)).map (render db))

/-! ## Deleting a category

`storage.py` exposes no category-deletion function; removal of a category
row is governed by the schema line
`FOREIGN KEY(category_id) REFERENCES categories(id) ON DELETE SET NULL`
(`SCHEMA`, storage.py lines 15–22): deleting a category removes its row and
sets the `category_id` of every referencing expense to NULL.  This
definition embeds that declarative DDL semantics. -/

def deleteCategory (db : DB) (cid : Nat) : DB :=
  { db with
    categories := db.categories.filter (fun c => !(c.id = cid)),
    expenses := db.expenses.map (fun e =>
      if e.category_id = some cid then { e with category_id := none } else e) }

/-! ## `storage.update_expense`

```python
def update_expense(con, expense_id, *, date=None, amount=None, description=None, category_id=None):
    fields = []; params = []
    if date is not None:        fields.append("date = ?"); params.append(date)
    if amount is not None:      fields.append("amount = ?"); params.append(amount)
    if description is not None: fields.append("description = ?"); params.append(description)
    if category_id is not None or category_id is None:
        fields.append("category_id = ?"); params.append(category_id)
    if not fields: return False
    q = "UPDATE expenses SET " + ", ".join(fields) + " WHERE id = ?"
    ...
    return cur.rowcount > 0
```

The `SET` clause is modelled as the list `updateFields`; note that the
guard on the `category_id` assignment is the source's condition verbatim —
`category_id is not None or category_id is None` — which is a tautology, so
the assignment is always included and the `if not fields` early return is
unreachable.  `cur.rowcount` for an SQLite UPDATE counts the rows matched
by the WHERE clause.  Setting a dangling `category_id` on a matched row
raises `IntegrityError` (hence the `Option`). -/

inductive FieldSet where
  | date (d : String)
  | amount (a : ℚ)
  | description (d : String)
  | categoryId (c : Option Nat)
deriving DecidableEq

def updateFields (date : Option String) (amount : Option ℚ) (description : Option String)
    (category_id : Option Nat) : List FieldSet :=
  (match date with | some d => [FieldSet.date d] | none => []) ++
  (match amount with | some a => [FieldSet.amount a] | none => []) ++
  (match description with | some d => [FieldSet.description d] | none => []) ++
  (if category_id ≠ none ∨ category_id = none then [FieldSet.categoryId category_id] else [])

def applyField (e : Expense) (f : FieldSet) : Expense :=
  match f with
  | .date d => { e with date := d }
  | .amount a => { e with amount := a }
  | .description d => { e with description := some d }
  | .categoryId c => { e with category_id := c }

/-- FK check on an updated row: a non-NULL `category_id` must reference an
existing category. -/
def fkOk (db : DB) (e : Expense) : Bool :=
  match e.category_id with
  | none => true
  | some c => db.categories.any (fun cat => cat.id = c)

def update_expense (db : DB) (expense_id : Nat) (date : Option String)
    (amount : Option ℚ) (description : Option String)
    (category_id : Option Nat) : Option (Bool × DB) :=
  let fields := updateFields date amount description category_id
  if fields.isEmpty then some (false, db)
  else
    let upd := fun e => fields.foldl applyField e
    if (db.expenses.filter (fun e => e.id = expense_id)).any (fun e => !fkOk db (upd e)) then
      none
    else
      some (db.expenses.any (fun e => e.id = expense_id),
        { db with expenses := db.expenses.map (fun e => if e.id = expense_id then upd e else e) })

/-! ## `storage.monthly_totals_by_category`

```python
ym = f"{year:04d}-{month:02d}"
q = "SELECT COALESCE(c.name, '-'), SUM(e.amount) as total
     FROM expenses e LEFT JOIN categories c ON c.id = e.category_id
     WHERE e.date LIKE ? || '%'
     GROUP BY c.name ORDER BY total DESC"
```

`LIKE ym || '%'` is a prefix test (the pattern is digits and a dash, so
LIKE's ASCII case folding and its `_` wildcard play no role).  The grouping
key is the joined `c.name` — `NULL` for expenses with no (or a dangling)
category reference; `category names are UNIQUE`.  `GROUP BY` is modelled by
deduplicating the keys of the filtered rows; `ORDER BY total DESC` by
insertion sort on the descending-total order. -/

def padZeros (w n : Nat) : String :=
  String.mk (List.replicate (w - (toString n).length) '0' ++ (toString n).data)

/-- Models `f"{year:04d}-{month:02d}"`. -/
def monthKey (year month : Nat) : String :=
  padZeros 4 year ++ "-" ++ padZeros 2 month

/-- Models `e.date LIKE ym || '%'`. -/
def monthMatches (ym date : String) : Bool :=
  List.isPrefixOf ym.data date.data

/-- The `GROUP BY` key: the joined `c.name` (NULL when the expense has no
matching category). -/
def joinKey (db : DB) (e : Expense) : Option String :=
  e.category_id.bind (fun c => (db.categories.find? (fun cat => cat.id = c)).map Category.name)

def monthExpenses (db : DB) (year month : Nat) : List Expense :=
  db.expenses.filter (fun e => monthMatches (monthKey year month) e.date)

/-- Models `ORDER BY total DESC`: `a` comes no later than `b`. -/
def totalLE (a b : String × ℚ) : Prop :=
  b.2 ≤ a.2

instance : DecidableRel totalLE := fun a b => by
  unfold totalLE
  exact inferInstance

instance : IsTotal (String × ℚ) totalLE :=
  ⟨fun a b => (le_total b.2 a.2).imp id id⟩

instance : IsTrans (String × ℚ) totalLE :=
  ⟨fun _ _ _ hab hbc => le_trans hbc hab⟩

def monthly_totals_by_category (db : DB) (year month : Nat) : List (String × ℚ) :=
  let es := monthExpenses db year month
  let keys := (es.map (joinKey db)).dedup
  List.insertionSort totalLE
    (keys.map (fun k =>
      (k.getD "-", ((es.filter (fun e => joinKey db e = k)).map Expense.amount).sum)))

/-! ## `expense_tracker.action_export_csv`

```python
def action_export_csv(con):
    rows = storage.list_expenses(con)
    if not rows:
        print("No expenses to export.")
        return
    path = reports.timestamped_export_path()
    out = reports.export_expenses_csv(path, rows)
    print(f"Exported to: {out}")
```

The observable effects are modelled explicitly: console messages, the
directories `os.makedirs` creates and the files written
(`export_expenses_csv` creates `os.path.dirname(filepath)` — `"exports"` —
then writes the CSV; its cell-level rendering is presentational and out of
scope).  The wall-clock timestamp is passed in as a parameter. -/

structure ExportOutcome where
  messages : List String
  dirsCreated : List String
  filesWritten : List String
deriving DecidableEq, Repr

/-- Models `os.path.join("exports", f"expenses_{ts}.csv")`. -/
def timestamped_export_path (ts : String) : String :=
  "exports/" ++ ("expenses_" ++ ts ++ ".csv")

def action_export_csv (db : DB) (ts : String) : ExportOutcome :=
  let rows := list_expenses db none none none
  if rows.isEmpty then
    { messages := ["No expenses to export."], dirsCreated := [], filesWritten := [] }
  else
    { messages := ["Exported to: " ++ timestamped_export_path ts],
      dirsCreated := ["exports"],
      filesWritten := [timestamped_export_path ts] }

/-! ## General lemmas about `list_expenses` -/

theorem mem_list_expenses {db : DB} {df dt : Option String} {c : Option Nat} {r : Row} :
    r ∈ list_expenses db df dt c ↔
      ∃ e ∈ db.expenses, passes df dt c e = true ∧ render db e = r := by
  unfold list_expenses
  rw [(List.perm_insertionSort rowLE _).mem_iff]
  simp only [List.mem_map, List.mem_filter]
  constructor
  · rintro ⟨e, ⟨he, hp⟩, hr⟩
    exact ⟨e, he, hp, hr⟩
  · rintro ⟨e, he, hp, hr⟩
    exact ⟨e, ⟨he, hp⟩, hr⟩

theorem sorted_list_expenses (db : DB) (df dt : Option String) (c : Option Nat) :
    (list_expenses db df dt c).Sorted rowLE :=
  List.sorted_insertionSort rowLE _

theorem passDF_iff {df : Option String} {e : Expense} (h : ∀ f, df = some f → f ≠ "") :
    passDF df e = true ↔ ∀ f, df = some f → f.data ≤ e.date.data := by
  cases df with
  | none => simp [passDF]
  | some f =>
    rw [passDF, if_neg (h f rfl)]
    simp [decide_eq_true_iff]

theorem passDT_iff {dt : Option String} {e : Expense} (h : ∀ t, dt = some t → t ≠ "") :
    passDT dt e = true ↔ ∀ t, dt = some t → e.date.data ≤ t.data := by
  cases dt with
  | none => simp [passDT]
  | some t =>
    rw [passDT, if_neg (h t rfl)]
    simp [decide_eq_true_iff]

theorem passCat_iff {c : Option Nat} {e : Expense} (h : ∀ n, c = some n → n ≠ 0) :
    passCat c e = true ↔ ∀ n, c = some n → e.category_id = some n := by
  cases c with
  | none => simp [passCat]
  | some n =>
    rw [passCat, if_neg (h n rfl)]
    simp [decide_eq_true_iff]

theorem passes_iff {df dt : Option String} {c : Option Nat} {e : Expense}
    (hdf : ∀ f, df = some f → f ≠ "") (hdt : ∀ t, dt = some t → t ≠ "")
    (hc : ∀ n, c = some n → n ≠ 0) :
    passes df dt c e = true ↔
      (∀ f, df = some f → f.data ≤ e.date.data) ∧
      (∀ t, dt = some t → e.date.data ≤ t.data) ∧
      (∀ n, c = some n → e.category_id = some n) := by
  unfold passes
  rw [Bool.and_eq_true, Bool.and_eq_true, passDF_iff hdf, passDT_iff hdt, passCat_iff hc,
    and_assoc]

/-- The three-expense store of the spec's filter-correctness example. -/
def filterDb : DB :=
  { categories := [],
    expenses := [⟨1, "2025-01-10", 10, none, none⟩,
                 ⟨2, "2025-02-15", 20, none, none⟩,
                 ⟨3, "2025-03-01", 30, none, none⟩],
    nextExpenseId := 4 }

/-! ## Claim theorems -/

/-- Claim C5: `list_expenses` applies its three filters conjunctively and each
only when provided: `date_from` as an inclusive lower bound, `date_to` as an
inclusive upper bound (lexicographically on the date strings), and
`category_id` as an exact match; the result is ordered by date descending
then id descending; and on stores holding expenses dated 2025-01-10,
2025-02-15 and 2025-03-01, the query `date_from=2025-02-01,
date_to=2025-02-28` returns only the 2025-02-15 record.  (The "provided"
values are assumed truthy — a non-empty date string, a non-zero id — which
is how the source tests for presence; ids assigned by the store are ≥ 1 and
validated dates are non-empty.) -/
theorem C5_list_expenses_filter_semantics :
    (∀ (db : DB) (df dt : Option String) (c : Option Nat) (r : Row),
      (∀ f, df = some f → f ≠ "") →
      (∀ t, dt = some t → t ≠ "") →
      (∀ n, c = some n → n ≠ 0) →
      (r ∈ list_expenses db df dt c ↔
        ∃ e ∈ db.expenses,
          (∀ f, df = some f → f.data ≤ e.date.data) ∧
          (∀ t, dt = some t → e.date.data ≤ t.data) ∧
          (∀ n, c = some n → e.category_id = some n) ∧
          render db e = r)) ∧
    (∀ (db : DB) (df dt : Option String) (c : Option Nat),
      (list_expenses db df dt c).Sorted rowLE) ∧
    list_expenses filterDb (some "2025-02-01") (some "2025-02-28") none =
      [⟨2, "2025-02-15", 20, "", "-"⟩] := by
  refine ⟨?_, sorted_list_expenses, by decide⟩
  intro db df dt c r hdf hdt hc
  rw [mem_list_expenses]
  constructor
  · rintro ⟨e, he, hp, hr⟩
    obtain ⟨h1, h2, h3⟩ := (passes_iff hdf hdt hc).mp hp
    exact ⟨e, he, h1, h2, h3, hr⟩
  · rintro ⟨e, he, h1, h2, h3, hr⟩
    exact ⟨e, he, (passes_iff hdf hdt hc).mpr ⟨h1, h2, h3⟩, hr⟩

/-- Witness for C5: the filter characterization instantiated at the spec's
concrete query on `filterDb`. -/
theorem C5_witness :
    (⟨2, "2025-02-15", 20, "", "-"⟩ : Row) ∈
        list_expenses filterDb (some "2025-02-01") (some "2025-02-28") none ↔
      ∃ e ∈ filterDb.expenses,
        (∀ f, (some "2025-02-01" : Option String) = some f → f.data ≤ e.date.data) ∧
        (∀ t, (some "2025-02-28" : Option String) = some t → e.date.data ≤ t.data) ∧
        (∀ n, (none : Option Nat) = some n → e.category_id = some n) ∧
        render filterDb e = ⟨2, "2025-02-15", 20, "", "-"⟩ :=
  C5_list_expenses_filter_semantics.1 filterDb _ _ _ _
    (fun f hf => by injection hf with h; subst h; decide)
    (fun t ht => by injection ht with h; subst h; decide)
    (fun n hn => by cases hn)

/-- Claim C4: deleting a category referenced by an existing expense (governed by
the schema's `ON DELETE SET NULL`) leaves the expense present with its
category reference set to NULL, and a subsequent unfiltered `list_expenses`
carries a row for it whose category name is the placeholder `"-"`. -/
theorem C4_delete_category_referential_integrity :
    ∀ (db : DB) (cid : Nat) (e : Expense), e ∈ db.expenses → e.category_id = some cid →
      { e with category_id := none } ∈ (deleteCategory db cid).expenses ∧
      ∃ r ∈ list_expenses (deleteCategory db cid) none none none,
        r.id = e.id ∧ r.date = e.date ∧ r.amount = e.amount ∧ r.category = "-" := by
  intro db cid e he hcid
  have hmem : { e with category_id := none } ∈ (deleteCategory db cid).expenses := by
    show _ ∈ db.expenses.map _
    exact List.mem_map.mpr ⟨e, he, by rw [if_pos hcid]⟩
  refine ⟨hmem, render (deleteCategory db cid) { e with category_id := none },
    mem_list_expenses.mpr ⟨_, hmem, rfl, rfl⟩, rfl, rfl, rfl, rfl⟩

/-- The one-category, one-expense store used to witness C4. -/
def delDb : DB :=
  { categories := [⟨1, "Food"⟩],
    expenses := [⟨1, "2025-01-01", 10, some "lunch", some 1⟩],
    nextExpenseId := 2 }

/-- Witness for C4: deleting category 1 of `delDb`. -/
theorem C4_witness :
    (⟨1, "2025-01-01", 10, some "lunch", none⟩ : Expense) ∈ (deleteCategory delDb 1).expenses ∧
    ∃ r ∈ list_expenses (deleteCategory delDb 1) none none none,
      r.id = 1 ∧ r.date = "2025-01-01" ∧ r.amount = 10 ∧ r.category = "-" :=
  C4_delete_category_referential_integrity delDb 1
    ⟨1, "2025-01-01", 10, some "lunch", some 1⟩ (by decide) rfl

/-- Claim C9: on a store with zero expenses the export action writes no file,
creates no directory (in particular not `exports/`), and reports that there
is nothing to export. -/
theorem C9_export_empty_store_writes_nothing :
    ∀ (cats : List Category) (n : Nat) (ts : String),
      action_export_csv ⟨cats, [], n⟩ ts =
        { messages := ["No expenses to export."], dirsCreated := [], filesWritten := [] } := by
  intro cats n ts
  rfl

/-- The store used to exhibit the `update_expense` behaviour: one category
and one expense referencing it. -/
def updDb : DB :=
  { categories := [⟨1, "Food"⟩],
    expenses := [⟨1, "2025-01-01", 10, some "lunch", some 1⟩],
    nextExpenseId := 2 }

/-- Claim C1, evaluated against the code at its own scenario: updating expense 1
of `updDb` with only the amount supplied changes the amount but also clears
the category reference (sets it to NULL), because the source's guard on the
`category_id` assignment — `category_id is not None or category_id is None`
— is a tautology.  The claim's "category reference retains its prior value"
fails; date and description are indeed retained. -/
theorem C1_update_amount_clears_category :
    updDb.expenses.map Expense.category_id = [some 1] ∧
    update_expense updDb 1 none (some 20) none none =
      some (true,
        { categories := [⟨1, "Food"⟩],
          expenses := [⟨1, "2025-01-01", 20, some "lunch", none⟩],
          nextExpenseId := 2 }) := by decide

/-- Claim C2, evaluated against the code at its own scenario: calling
`update_expense` on the existing expense 1 of `updDb` with all four optional
fields omitted returns `true` — not `false` — and mutates the store (the
expense's category reference becomes NULL): the `if not fields: return
False` guard is unreachable because the `category_id` clause is always
appended. -/
theorem C2_update_no_fields_affects_row :
    update_expense updDb 1 none none none none =
      some (true,
        { categories := [⟨1, "Food"⟩],
          expenses := [⟨1, "2025-01-01", 10, some "lunch", none⟩],
          nextExpenseId := 2 }) ∧
    ({ categories := [⟨1, "Food"⟩],
       expenses := [⟨1, "2025-01-01", 10, some "lunch", none⟩],
       nextExpenseId := 2 } : DB) ≠ updDb := by decide

/-- Claim C3, evaluated against the code at the failing input: `parse_amount` checks
`value <= 0` before rounding, so `"0.001"` is not rejected and the returned
rounded value is `0` — not strictly positive.  (Non-positive inputs `"0"`
and `"-3"` are rejected, as the claim's first half says.) -/
theorem C3_parse_amount_can_return_zero :
    parse_amount "0.001" = some 0 ∧ parse_amount "0" = none ∧ parse_amount "-3" = none := by
  refine ⟨?_, ?_, ?_⟩
  · have hp : parseFloatParts (commaToDot (pyStrip "0.001".data)) =
        some ⟨false, 0, 1, 3, 0⟩ := by decide
    simp only [parse_amount, hp]
    have hv : partsVal ⟨false, 0, 1, 3, 0⟩ = 1 / 1000 := by norm_num [partsVal]
    rw [hv, if_neg (by norm_num)]
    have hf : ⌊(1 : ℚ) / 1000 * 100⌋ = 0 := Int.floor_eq_iff.mpr (by norm_num)
    simp only [pyRound2, roundHalfEven, hf]
    norm_num
  · have hp : parseFloatParts (commaToDot (pyStrip "0".data)) =
        some ⟨false, 0, 0, 0, 0⟩ := by decide
    simp only [parse_amount, hp]
    rw [if_pos (by norm_num [partsVal])]
  · have hp : parseFloatParts (commaToDot (pyStrip "-3".data)) =
        some ⟨true, 3, 0, 0, 0⟩ := by decide
    simp only [parse_amount, hp]
    rw [if_pos (by norm_num [partsVal])]

/-! ## C6: add / list round trip -/

theorem passes_none_true (e : Expense) : passes none none none e = true := rfl

theorem filter_insertionSort_singleton {L : List Row} {p : Row → Bool} {a : Row}
    (h : L.filter p = [a]) : (List.insertionSort rowLE L).filter p = [a] :=
  List.perm_singleton.mp (h ▸ (List.perm_insertionSort rowLE L).filter p)

/-- Claim C6, amended: the listed description is the stored — i.e. trimmed,
empty when absent — description).  After a successful
`add_expense(date, amount, description, category_id) = (i, db')` on a store
whose expense ids are all below the id counter, an unfiltered
`list_expenses` contains exactly one row with id `i`, and it carries the
given date and amount, the stored description, and the referenced
category's name (the placeholder `"-"` when no category was given). -/
theorem C6_add_expense_round_trip :
    ∀ (db : DB) (date : String) (amount : ℚ) (description : String) (catId : Option Nat)
      (i : Nat) (db' : DB),
      (∀ e ∈ db.expenses, e.id < db.nextExpenseId) →
      add_expense db date amount description catId = some (i, db') →
      (list_expenses db' none none none).filter (fun r => r.id = i) =
        [⟨i, date, amount, (storedDesc description).getD "", catName db catId⟩] ∧
      (catId = none → catName db catId = "-") ∧
      (∀ c, catId = some c → ∃ cat ∈ db.categories, cat.id = c ∧ catName db catId = cat.name) := by
  intro db date amount description catId i db' hwf hadd
  have hstep : i = db.nextExpenseId ∧
      db' = { db with
        expenses := db.expenses ++ [⟨db.nextExpenseId, date, amount, storedDesc description, catId⟩],
        nextExpenseId := db.nextExpenseId + 1 } ∧
      (∀ c, catId = some c → db.categories.any (fun cat => cat.id = c) = true) := by
    cases catId with
    | none =>
      rw [add_expense] at hadd
      obtain ⟨h1, h2⟩ := Prod.mk.injEq .. ▸ Option.some.inj hadd
      exact ⟨h1.symm, h2.symm, fun c hc => by cases hc⟩
    | some c =>
      rw [add_expense] at hadd
      by_cases hany : db.categories.any (fun cat => cat.id = c) = true
      · rw [if_pos hany] at hadd
        obtain ⟨h1, h2⟩ := Prod.mk.injEq .. ▸ Option.some.inj hadd
        exact ⟨h1.symm, h2.symm, fun c' hc' => by injection hc' with h; exact h ▸ hany⟩
      · rw [if_neg hany] at hadd
        cases hadd
  obtain ⟨hi, hdb', hany⟩ := hstep
  subst hi
  subst hdb'
  set newE : Expense := ⟨db.nextExpenseId, date, amount, storedDesc description, catId⟩ with hnewE
  refine ⟨?_, fun h => by rw [h]; rfl, ?_⟩
  · -- exactly one listed row has the new id
    rw [list_expenses]
    apply filter_insertionSort_singleton
    have hall : (db.expenses ++ [newE]).filter (passes none none none) =
        db.expenses ++ [newE] :=
      List.filter_eq_self.mpr (fun a _ => passes_none_true a)
    rw [show ({ db with
        expenses := db.expenses ++ [newE],
        nextExpenseId := db.nextExpenseId + 1 } : DB).expenses = db.expenses ++ [newE] from rfl,
      hall, List.map_append, List.filter_append]
    have hnil : (db.expenses.map (render { db with
        expenses := db.expenses ++ [newE],
        nextExpenseId := db.nextExpenseId + 1 })).filter
        (fun r : Row => decide (r.id = db.nextExpenseId)) = [] := by
      refine List.filter_eq_nil_iff.mpr ?_
      rintro r hr
      obtain ⟨e, he, hre⟩ := List.mem_map.mp hr
      have hid : r.id = e.id := by rw [← hre]; rfl
      simp only [hid, decide_eq_true_eq]
      exact Nat.ne_of_lt (hwf e he)
    rw [hnil]
    simp [render]
    cases catId <;> rfl
  · -- the category name is the referenced category's name
    intro c hc
    subst hc
    have := List.any_eq_true.mp (hany c rfl)
    obtain ⟨cat0, hmem0, _⟩ := this
    cases hfind : db.categories.find? (fun cat => cat.id = c) with
    | none =>
      exfalso
      have := List.find?_eq_none.mp hfind cat0 hmem0
      simp_all
    | some cat =>
      refine ⟨cat, List.mem_of_find?_eq_some hfind, ?_, ?_⟩
      · have := List.find?_some hfind
        simpa using this
      · show catName db (some c) = cat.name
        rw [catName, hfind]

/-- The pre-state used to witness C6: one category, no expenses. -/
def rtDb : DB :=
  { categories := [⟨1, "Food"⟩], expenses := [], nextExpenseId := 1 }

/-- The post-state of the witness `add_expense` call on `rtDb`. -/
def rtDb2 : DB :=
  { categories := [⟨1, "Food"⟩],
    expenses := [⟨1, "2025-01-10", 5, some "coffee", some 1⟩],
    nextExpenseId := 2 }

/-- Witness for C6: adding (2025-01-10, 5, "coffee", category 1) to `rtDb`
and listing. -/
theorem C6_witness :
    (list_expenses rtDb2 none none none).filter (fun r => r.id = 1) =
      [⟨1, "2025-01-10", 5, "coffee", "Food"⟩] ∧
    ((some 1 : Option Nat) = none → catName rtDb (some 1) = "-") ∧
    (∀ c, (some 1 : Option Nat) = some c →
      ∃ cat ∈ rtDb.categories, cat.id = c ∧ catName rtDb (some 1) = cat.name) := by
  exact C6_add_expense_round_trip rtDb "2025-01-10" 5 "coffee" (some 1) 1 rtDb2
    (fun e he => absurd he (List.not_mem_nil e)) (by decide)

/-- The post-state of adding description `" coffee "` to an empty store. -/
def rtTrimDb : DB :=
  { categories := [], expenses := [⟨1, "2025-01-10", 5, some "coffee", none⟩], nextExpenseId := 2 }

/-- Counterexample to C6 as stated: `add_expense` stores the description
trimmed, so after adding with description `" coffee "` the listing contains
no record with the new id carrying that same description — the round trip
does not preserve an untrimmed description. -/
theorem C6_counterexample :
    add_expense ⟨[], [], 1⟩ "2025-01-10" 5 " coffee " none = some (1, rtTrimDb) ∧
    ∀ r ∈ list_expenses rtTrimDb none none none,
      ¬(r.id = 1 ∧ r.description = " coffee ") := by
  decide

/-! ## C7: `parse_iso_date` -/

/-- Spec-side month length: the Gregorian calendar month-length table
("real calendar date", rejecting e.g. day 31 in April; year 0 has no
Gregorian date). -/
def specMonthLength (y m : Nat) : Nat :=
  [31, if (y % 4 = 0 ∧ y % 100 ≠ 0) ∨ y % 400 = 0 then 29 else 28,
   31, 30, 31, 30, 31, 31, 30, 31, 30, 31].getD (m - 1) 0

/-- Spec-side "real calendar date" triple. -/
def specRealTriple (y m d : Nat) : Prop :=
  1 ≤ y ∧ 1 ≤ m ∧ m ≤ 12 ∧ 1 ≤ d ∧ d ≤ specMonthLength y m

theorem daysInMonth_eq_spec {y m : Nat} (h1 : 1 ≤ m) (h2 : m ≤ 12) :
    daysInMonth y m = specMonthLength y m := by
  interval_cases m <;>
    simp only [daysInMonth, specMonthLength, isLeapB] <;>
    first
      | rfl
      | (by_cases h : (y % 4 = 0 ∧ y % 100 ≠ 0) ∨ y % 400 = 0 <;> simp [h])

theorem validYMD_iff_spec {y m d : Nat} :
    validYMD y m d = true ↔ specRealTriple y m d := by
  rw [validYMD, decide_eq_true_iff]
  unfold specRealTriple
  constructor
  · rintro ⟨hy, hm1, hm2, hd1, hd2⟩
    exact ⟨hy, hm1, hm2, hd1, daysInMonth_eq_spec hm1 hm2 ▸ hd2⟩
  · rintro ⟨hy, hm1, hm2, hd1, hd2⟩
    exact ⟨hy, hm1, hm2, hd1, (daysInMonth_eq_spec hm1 hm2).symm ▸ hd2⟩

/-- Claim C7, amended: the comparison is made after Python's `.strip()`, and
the accepted string is returned stripped).  `parse_iso_date` never throws
(it is total, returning `none` or the trimmed input), and it accepts the
trimmed input exactly when it matches the `YYYY-MM-DD` pattern and denotes
a real (proleptic Gregorian, year ≥ 1) calendar date; the spec's malformed
examples are rejected. -/
theorem parse_iso_date_of_no_match {s : String} (h : isoFields (pyStrip s.data) = none) :
    parse_iso_date s = none := by
  simp only [parse_iso_date, h]

theorem parse_iso_date_of_match {s : String} {y m d : Nat}
    (h : isoFields (pyStrip s.data) = some (y, m, d)) :
    parse_iso_date s = if validYMD y m d = true then some (strTrim s) else none := by
  simp only [parse_iso_date, h, strTrim]

theorem C7_parse_iso_date_amended :
    (∀ s : String,
      (parse_iso_date s = none ∨ parse_iso_date s = some (strTrim s)) ∧
      (parse_iso_date s = some (strTrim s) ↔
        ∃ y m d, isoFields (pyStrip s.data) = some (y, m, d) ∧ specRealTriple y m d)) ∧
    parse_iso_date "2025-02-30" = none ∧ parse_iso_date "25-01-01" = none ∧
    parse_iso_date "2025/01/01" = none ∧ parse_iso_date "2025-04-31" = none ∧
    parse_iso_date "2024-02-29" = some "2024-02-29" ∧
    parse_iso_date "2025-02-28" = some "2025-02-28" := by
  refine ⟨?_, by decide, by decide, by decide, by decide, by decide, by decide⟩
  intro s
  cases hiso : isoFields (pyStrip s.data) with
  | none =>
    rw [parse_iso_date_of_no_match hiso]
    refine ⟨Or.inl rfl, ?_, ?_⟩
    · intro h
      cases h
    · rintro ⟨y, m, d, heq, -⟩
      cases heq
  | some ymd =>
    obtain ⟨y, m, d⟩ := ymd
    rw [parse_iso_date_of_match hiso]
    by_cases hv : validYMD y m d = true
    · rw [if_pos hv]
      exact ⟨Or.inr rfl, fun _ => ⟨y, m, d, rfl, validYMD_iff_spec.mp hv⟩, fun _ => rfl⟩
    · rw [if_neg hv]
      refine ⟨Or.inl rfl, ?_, ?_⟩
      · intro h
        cases h
      · rintro ⟨y', m', d', heq, hspec⟩
        injection heq with heq2
        obtain ⟨hy, hmd⟩ := Prod.mk.injEq .. ▸ heq2
        obtain ⟨hm, hd⟩ := Prod.mk.injEq .. ▸ hmd
        subst hy
        subst hm
        subst hd
        exact (hv (validYMD_iff_spec.mpr hspec)).elim

/-- Counterexample to C7 as stated: `" 2025-01-01"` is not in the
`YYYY-MM-DD` pattern (the regex rejects it), so by the claim it must signal
invalid — but `parse_iso_date` strips it and accepts, and what it returns
is not the input string unchanged. -/
theorem C7_counterexample :
    parse_iso_date " 2025-01-01" = some "2025-01-01" ∧
    isoFields " 2025-01-01".data = none ∧
    "2025-01-01" ≠ " 2025-01-01" := by
  decide

/-! ## C8: `monthly_totals_by_category` -/

theorem mem_monthly_totals {db : DB} {y m : Nat} {p : String × ℚ} :
    p ∈ monthly_totals_by_category db y m ↔
      ∃ k ∈ (monthExpenses db y m).map (joinKey db),
        p = (k.getD "-",
          (((monthExpenses db y m).filter (fun e => joinKey db e = k)).map
            Expense.amount).sum) := by
  unfold monthly_totals_by_category
  rw [(List.perm_insertionSort totalLE _).mem_iff]
  simp only [List.mem_map, List.mem_dedup]
  constructor
  · rintro ⟨k, hk, hp⟩
    exact ⟨k, hk, hp.symm⟩
  · rintro ⟨k, hk, hp⟩
    exact ⟨k, hk, hp.symm⟩

/-- The two-expense, one-category store of the spec's monthly-totals
example. -/
def sumDb : DB :=
  { categories := [⟨1, "Food"⟩],
    expenses := [⟨1, "2025-06-10", 10, none, some 1⟩,
                 ⟨2, "2025-06-20", 5, none, some 1⟩],
    nextExpenseId := 3 }

/-- A store whose June expenses have no category. -/
def nullCatDb : DB :=
  { categories := [⟨1, "Food"⟩],
    expenses := [⟨1, "2025-06-01", 7, none, none⟩,
                 ⟨2, "2025-06-02", 8, none, none⟩],
    nextExpenseId := 3 }

/-- Claim C8: `monthly_totals_by_category(year, month)` returns one row per
group of that month's expenses — grouped by joined category name, the
null-category group rendered as the placeholder `"-"` — carrying the sum of
the group's amounts, ordered by total descending; in particular two
expenses of 10.00 and 5.00 in the same category in 2025-06 yield the single
row `("Food", 15.00)`, and two null-category expenses of 7.00 and 8.00
yield the single row `("-", 15.00)`. -/
theorem C8_monthly_totals_semantics :
    (∀ (db : DB) (y m : Nat) (p : String × ℚ),
      p ∈ monthly_totals_by_category db y m ↔
        ∃ k ∈ (monthExpenses db y m).map (joinKey db),
          p = (k.getD "-",
            (((monthExpenses db y m).filter (fun e => joinKey db e = k)).map
              Expense.amount).sum)) ∧
    (∀ (db : DB) (y m : Nat), (monthly_totals_by_category db y m).Sorted totalLE) ∧
    monthly_totals_by_category sumDb 2025 6 = [("Food", 15)] ∧
    monthly_totals_by_category nullCatDb 2025 6 = [("-", 15)] := by
  refine ⟨fun db y m p => mem_monthly_totals,
    fun db y m => List.sorted_insertionSort totalLE _, ?_, ?_⟩
  · simp only [monthly_totals_by_category]
    rw [show monthExpenses sumDb 2025 6 = sumDb.expenses from by decide]
    rw [show (sumDb.expenses.map (joinKey sumDb)).dedup = [some "Food"] from by decide]
    simp only [List.map_cons, List.map_nil]
    rw [show sumDb.expenses.filter (fun e => joinKey sumDb e = some "Food") =
      sumDb.expenses from by decide]
    rw [show sumDb.expenses.map Expense.amount = [10, 5] from by decide]
    rw [show ([10, 5] : List ℚ).sum = 15 from by
      simp only [List.sum_cons, List.sum_nil]; norm_num]
    rfl
  · simp only [monthly_totals_by_category]
    rw [show monthExpenses nullCatDb 2025 6 = nullCatDb.expenses from by decide]
    rw [show (nullCatDb.expenses.map (joinKey nullCatDb)).dedup = [none] from by decide]
    simp only [List.map_cons, List.map_nil]
    rw [show nullCatDb.expenses.filter (fun e => joinKey nullCatDb e = none) =
      nullCatDb.expenses from by decide]
    rw [show nullCatDb.expenses.map Expense.amount = [7, 8] from by decide]
    rw [show ([7, 8] : List ℚ).sum = 15 from by
      simp only [List.sum_cons, List.sum_nil]; norm_num]
    rfl

/-! ## C10: every comma is a decimal separator

`parse_amount` replaces every `,` by `.` before parsing; a float literal
contains at most one `.`, so any input containing both separators is
rejected, and `"1,234"` parses as `1.234` (rounded to `1.23`), not as a
thousands-grouped 1234. -/

theorem mem_dropWhile_of_neg {p : Char → Bool} {c : Char} (hc : p c = false) :
    ∀ {l : List Char}, c ∈ l → c ∈ l.dropWhile p := by
  intro l
  induction l with
  | nil => exact fun h => absurd h (List.not_mem_nil c)
  | cons a t ih =>
    intro h
    rw [List.dropWhile_cons]
    by_cases ha : p a = true
    · rw [if_pos ha]
      rcases List.mem_cons.mp h with heq | ht
      · subst heq
        rw [hc] at ha
        cases ha
      · exact ih ht
    · rw [if_neg ha]
      exact h

theorem mem_pyStrip {c : Char} (hc : c.isWhitespace = false) {l : List Char}
    (h : c ∈ l) : c ∈ pyStrip l := by
  unfold pyStrip
  rw [List.mem_reverse]
  exact mem_dropWhile_of_neg hc (List.mem_reverse.mpr (mem_dropWhile_of_neg hc h))

theorem count_commaToDot (l : List Char) :
    (commaToDot l).count '.' = l.count '.' + l.count ',' := by
  induction l with
  | nil => rfl
  | cons a t ih =>
    show ((if a = ',' then '.' else a) :: commaToDot t).count '.' = _
    rw [List.count_cons, List.count_cons, List.count_cons, ih]
    by_cases ha : a = ','
    · subst ha
      simp
      omega
    · by_cases ha2 : a = '.'
      · subst ha2
        simp
        omega
      · simp [ha, ha2]

theorem count_dot_takeWhile_digit (l : List Char) :
    (l.takeWhile Char.isDigit).count '.' = 0 :=
  List.count_eq_zero.mpr (fun hmem => absurd (List.mem_takeWhile_imp hmem) (by decide))

theorem count_splitSign (l : List Char) : ((splitSign l).2).count '.' = l.count '.' := by
  cases l with
  | nil => rfl
  | cons a t =>
    rw [splitSign]
    by_cases h1 : a = '-'
    · subst h1
      rw [if_pos rfl, List.count_cons]
      simp
    · rw [if_neg h1]
      by_cases h2 : a = '+'
      · subst h2
        rw [if_pos rfl, List.count_cons]
        simp
      · rw [if_neg h2]

theorem count_parseExpPart {l : List Char} {ex : Int} (h : parseExpPart l = some ex) :
    l.count '.' = 0 := by
  cases l with
  | nil => rfl
  | cons c r =>
    simp only [parseExpPart] at h
    by_cases hce : c = 'e' ∨ c = 'E'
    · rw [if_pos hce] at h
      by_cases hds : (splitSign r).2.takeWhile Char.isDigit = [] ∨
          (splitSign r).2.dropWhile Char.isDigit ≠ []
      · rw [if_pos hds] at h
        cases h
      · obtain ⟨-, hds2⟩ := not_or.mp hds
        have hdrop : (splitSign r).2.dropWhile Char.isDigit = [] := not_not.mp hds2
        have hr : r.count '.' = 0 := by
          rw [← count_splitSign r,
            ← List.takeWhile_append_dropWhile Char.isDigit ((splitSign r).2),
            List.count_append, hdrop, count_dot_takeWhile_digit]
          rfl
        rw [List.count_cons, hr]
        rcases hce with hc | hc <;> subst hc <;> simp
    · rw [if_neg hce] at h
      cases h

theorem splitFrac_cases (l : List Char) :
    splitFrac l = (none, l) ∨
    ∃ r, l = '.' :: r ∧
      splitFrac l = (some (r.takeWhile Char.isDigit), r.dropWhile Char.isDigit) := by
  cases l with
  | nil => exact Or.inl rfl
  | cons c r =>
    by_cases hc : c = '.'
    · subst hc
      exact Or.inr ⟨r, rfl, by rw [splitFrac, if_pos rfl]⟩
    · exact Or.inl (by rw [splitFrac, if_neg hc])

theorem count_parseFloatParts {l : List Char} {p : FloatParts}
    (h : parseFloatParts l = some p) : l.count '.' ≤ 1 := by
  simp only [parseFloatParts] at h
  rw [← count_splitSign l,
    ← List.takeWhile_append_dropWhile Char.isDigit ((splitSign l).2), List.count_append,
    count_dot_takeWhile_digit]
  rcases splitFrac_cases ((splitSign l).2.dropWhile Char.isDigit) with hsf | ⟨r, hr, hsf⟩
  · rw [hsf] at h
    simp only [Option.getD_none] at h
    split at h
    · cases h
    · cases hexp : parseExpPart ((splitSign l).2.dropWhile Char.isDigit) with
      | none =>
        rw [hexp] at h
        cases h
      | some ex =>
        rw [count_parseExpPart hexp]
        decide
  · rw [hsf] at h
    simp only [Option.getD_some] at h
    split at h
    · cases h
    · cases hexp : parseExpPart (r.dropWhile Char.isDigit) with
      | none =>
        rw [hexp] at h
        cases h
      | some ex =>
        rw [hr, List.count_cons, ← List.takeWhile_append_dropWhile Char.isDigit r,
          List.count_append, count_dot_takeWhile_digit, count_parseExpPart hexp]
        simp

/-- Claim C10: `parse_amount` treats every comma as a decimal separator,
never as a thousands separator: any input containing both a `','` and a
`'.'` is rejected (after replacement it has two dots and no float literal
does), and `"1,234"` parses as `1.234`, returned rounded to `1.23` — not as
one thousand two hundred thirty-four. -/
theorem C10_comma_is_decimal_separator :
    (∀ s : String, ',' ∈ s.data → '.' ∈ s.data → parse_amount s = none) ∧
    parse_amount "1,234" = some (123 / 100) := by
  constructor
  · intro s hm hd
    have h2 : 2 ≤ (commaToDot (pyStrip s.data)).count '.' := by
      rw [count_commaToDot]
      have c1 : 0 < (pyStrip s.data).count '.' :=
        List.count_pos_iff.mpr (mem_pyStrip (by decide) hd)
      have c2 : 0 < (pyStrip s.data).count ',' :=
        List.count_pos_iff.mpr (mem_pyStrip (by decide) hm)
      omega
    cases hpp : parseFloatParts (commaToDot (pyStrip s.data)) with
    | none => simp only [parse_amount, hpp]
    | some p =>
      have := count_parseFloatParts hpp
      omega
  · have hp : parseFloatParts (commaToDot (pyStrip "1,234".data)) =
        some ⟨false, 1, 234, 3, 0⟩ := by decide
    simp only [parse_amount, hp]
    have hv : partsVal ⟨false, 1, 234, 3, 0⟩ = 617 / 500 := by norm_num [partsVal]
    rw [hv, if_neg (by norm_num)]
    have hf : ⌊(617 : ℚ) / 500 * 100⌋ = 123 := Int.floor_eq_iff.mpr (by norm_num)
    simp only [pyRound2, roundHalfEven, hf]
    norm_num

/-- Witness for C10 at the claim's own example `"1,234.50"`. -/
theorem C10_witness :
    ',' ∈ "1,234.50".data ∧ '.' ∈ "1,234.50".data ∧ parse_amount "1,234.50" = none :=
  ⟨by decide, by decide,
    C10_comma_is_decimal_separator.1 "1,234.50" (by decide) (by decide)⟩

end ExpenseTracker
